import Mathlib

/-!
# kubectl generators, the create orchestration and the typed resourceQuotas client

A shallow embedding of

* `pkg/kubectl/namespace.go` (`NamespaceGeneratorV1`),
* `pkg/kubectl/secret_for_docker_registry.go` (`SecretForDockerRegistryGeneratorV1`,
  `handleDockercfgContent`),
* `pkg/kubectl/cmd/macro/macro.go` (`createCommandInternal`),
* `pkg/client/typed/generated/legacy/unversioned/resourcequota.go` (`resourceQuotas`),

followed by the properties proved about them.

Conventions of the embedding.

* A Go `map[string]T` is an association list with pairwise distinct keys
  (`KeysNodup`); the order of the list is the order in which a `range` loop
  visits the entries, which the Go runtime is free to choose.
* A Go `string` is a Lean `String` (a sequence of Unicode scalar values).
* A Go `(obj, err)` result is a pair of options, `none` standing for `nil`.
* An `interface{}` value is a `Value`.
-/

namespace Kubectl

/-! ## Data model -/

/-- An `interface{}` parameter value: a string, a string slice, `nil`, or another scalar. -/
inductive Value where
  | str (s : String)
  | strSlice (l : List String)
  | nil
  | int (n : Int)
  | bool (b : Bool)
  deriving DecidableEq, Repr

/-- The Go type assertion `value.(string)`. -/
def Value.asString : Value → Option String
  | Value.str s => some s
  | _ => none

/-- The errors that the embedded code builds or passes on. -/
inductive Err where
  /-- The error of `ValidateParams` for a required parameter without a value. -/
  | missingRequired (name : String)
  /-- The error built by `fmt.Errorf("expected string, saw %v for '%s'", value, key)`. -/
  | expectedString (value : Value) (key : String)
  /-- The error built by `cmdutil.UsageError(cmd, msg)`. -/
  | usage (msg : String)
  /-- An error returned by a collaborator. -/
  | other (msg : String)
  deriving DecidableEq, Repr

/-- The struct `GeneratorParam`: the two positional fields used by `{"name", true}`. -/
structure GeneratorParam where
  Name : String
  Required : Bool
  deriving DecidableEq, Repr

/-- A Go map with string keys, in the order a `range` loop visits it. -/
abbrev GoMap (β : Type) := List (String × β)

/-- The type `map[string]interface{}`. -/
abbrev ParamMap := GoMap Value

/-- Keys of a map are pairwise distinct. -/
def KeysNodup {β : Type} (m : GoMap β) : Prop := (m.map Prod.fst).Nodup

instance {β : Type} (m : GoMap β) : Decidable (KeysNodup m) := by
  unfold KeysNodup; infer_instance

/-- The two-valued index expression `v, found := m[key]`. -/
def mapGet {β : Type} : GoMap β → String → Option β
  | [], _ => none
  | (k, v) :: rest, key => if key = k then some v else mapGet rest key

/-- The assignment `m[key] = v`: overwrite the entry when the key exists, add one otherwise. -/
def mapSet {β : Type} : GoMap β → String → β → GoMap β
  | [], key, v => [(key, v)]
  | (k, w) :: rest, key, v => if key = k then (k, v) :: rest else (k, w) :: mapSet rest key v

/-- The one-valued index expression `m[key]` on a `map[string]string`: the zero value
`""` when the key is missing. -/
def strIndex (m : GoMap String) (key : String) : String :=
  (mapGet m key).getD ""

/-- The fields of `api.ObjectMeta` that the embedded code reads or writes. -/
structure ObjectMeta where
  Name : String := ""
  Annotations : GoMap String := []
  deriving DecidableEq, Repr

/-- The type `api.Namespace`, as far as the generator fills it. -/
structure Namespace where
  meta : ObjectMeta := {}
  deriving DecidableEq, Repr

/-- The type `api.Secret`, as far as the generator fills it. `Data` maps a key to bytes,
here the text of the payload; `Type_` is the field `Type`. -/
structure Secret where
  meta : ObjectMeta := {}
  Type_ : String := ""
  Data : GoMap String := []
  deriving DecidableEq, Repr

/-- A `runtime.Object` produced by one of the generators. -/
inductive Object where
  | namespace (n : Namespace)
  | secret (s : Secret)
  deriving DecidableEq, Repr

/-- The promoted field `obj.Name`. -/
def Object.Name : Object → String
  | Object.namespace n => n.meta.Name
  | Object.secret s => s.meta.Name

/-- The constants `api.SecretTypeDockercfg` and `api.DockerConfigKey`, declared in
`pkg/api`, outside the sources at hand; the embedding takes them as a parameter. -/
structure ApiConstants where
  SecretTypeDockercfg : String
  DockerConfigKey : String
  deriving DecidableEq, Repr

/-! ## Parameter validation -/

/-- Modelled from the spec: `ValidateParams` is defined in `pkg/kubectl/generate.go`,
which is not among the sources. Section 4.2: for every spec flagged required, the
corresponding key must exist in params with a non-absent value; unknown extra keys
are tolerated; returns the first missing-required-parameter violation found. The
absent value is `nil`. -/
def ValidateParams : List GeneratorParam → ParamMap → Option Err
  | [], _ => none
  | p :: rest, params =>
    if p.Required then
      match mapGet params p.Name with
      | none => some (Err.missingRequired p.Name)
      | some Value.nil => some (Err.missingRequired p.Name)
      | some _ => ValidateParams rest params
    else ValidateParams rest params

/-! ## The generators -/

/-- The loop shared by both generators,
`for key, value := range genericParams { strVal, isString := value.(string); ... }`,
started from the map `params` built so far: the first entry visited whose value is
not a string ends the loop with the error, every other entry is copied. -/
def rangeStrings : ParamMap → GoMap String → Except Err (GoMap String)
  | [], params => Except.ok params
  | (key, value) :: rest, params =>
    match value.asString with
    | none => Except.error (Err.expectedString value key)
    | some strVal => rangeStrings rest (mapSet params key strVal)

/-- The method `NamespaceGeneratorV1.ParamNames`. -/
def NamespaceGeneratorV1.ParamNames : List GeneratorParam :=
  [⟨"name", true⟩]

/-- The method `NamespaceGeneratorV1.Generate`. -/
def NamespaceGeneratorV1.Generate (genericParams : ParamMap) : Option Object × Option Err :=
  match ValidateParams NamespaceGeneratorV1.ParamNames genericParams with
  | some err => (none, some err)
  | none =>
    match rangeStrings genericParams [] with
    | Except.error err => (none, some err)
    | Except.ok params =>
      let name := strIndex params "name"
      (some (Object.namespace { meta := { Name := name } }), none)

/-! ## The docker-config payload and its JSON text -/

/-- The struct `credentialprovider.DockerConfigEntry`, with the three fields that
`handleDockercfgContent` sets. -/
structure DockerConfigEntry where
  Username : String
  Password : String
  Email : String
  deriving DecidableEq, Repr

/-- The type `map[string]credentialprovider.DockerConfigEntry`. -/
abbrev DockerConfig := GoMap DockerConfigEntry

/-- The double quote. -/
def chQuote : Char := Char.ofNat 34
/-- The reverse solidus. -/
def chBackslash : Char := Char.ofNat 92
/-- The opening brace. -/
def chOpen : Char := Char.ofNat 123
/-- The closing brace. -/
def chClose : Char := Char.ofNat 125

/-- The digit of `n < 16` in lower-case hexadecimal. -/
def hexDigit (n : Nat) : Char :=
  if n < 10 then Char.ofNat (48 + n) else Char.ofNat (87 + n)

/-- The value of a hexadecimal digit, in either case. -/
def hexValue (c : Char) : Option Nat :=
  if 48 ≤ c.toNat ∧ c.toNat ≤ 57 then some (c.toNat - 48)
  else if 97 ≤ c.toNat ∧ c.toNat ≤ 102 then some (c.toNat - 87)
  else if 65 ≤ c.toNat ∧ c.toNat ≤ 70 then some (c.toNat - 55)
  else none

/-- The four hexadecimal digits of `n < 65536`. -/
def hex4 (n : Nat) : List Char :=
  [hexDigit (n / 4096 % 16), hexDigit (n / 256 % 16), hexDigit (n / 16 % 16), hexDigit (n % 16)]

/-- The value of four hexadecimal digits. -/
def hex4Value (a b c d : Char) : Option Nat :=
  match hexValue a, hexValue b, hexValue c, hexValue d with
  | some x, some y, some z, some w => some (x * 4096 + y * 256 + z * 16 + w)
  | _, _, _, _ => none

/-- Modelled from the spec: the characters that the canonical JSON encoding writes as a
`\u` escape: the control characters, the three characters escaped for HTML safety and
the two Unicode line separators. The encoder is `encoding/json`, not among the sources. -/
def needsUnicodeEscape (c : Char) : Bool :=
  c.toNat < 32 || c == '<' || c == '>' || c == '&' || c.toNat == 8232 || c.toNat == 8233

/-- Modelled from the spec: the JSON text of one character of a string, in the canonical
encoding of `encoding/json` (not among the sources). -/
def escapeChar (c : Char) : List Char :=
  if c = chQuote ∨ c = chBackslash then [chBackslash, c]
  else if c = Char.ofNat 10 then [chBackslash, 'n']
  else if c = Char.ofNat 13 then [chBackslash, 'r']
  else if c = Char.ofNat 9 then [chBackslash, 't']
  else if needsUnicodeEscape c then chBackslash :: 'u' :: hex4 c.toNat
  else [c]

/-- Modelled from the spec: the JSON text of a string (`encoding/json` is not among the
sources): the escaped characters between double quotes. -/
def jsonString (s : String) : List Char :=
  chQuote :: (s.data.flatMap escapeChar ++ [chQuote])

/-- Modelled from the spec: the JSON text of an object whose member values are written
by `rv`, members in the order of the list, without white space. -/
def renderMembers {α : Type} (rv : α → List Char) : GoMap α → List Char
  | [] => []
  | [(k, v)] => jsonString k ++ ':' :: rv v
  | (k, v) :: rest => jsonString k ++ ':' :: (rv v ++ ',' :: renderMembers rv rest)

/-- Modelled from the spec: the JSON text of an object. -/
def renderObject {α : Type} (rv : α → List Char) (members : GoMap α) : List Char :=
  chOpen :: (renderMembers rv members ++ [chClose])

/-- Modelled from the spec: the JSON object of a `DockerConfigEntry`, section 6:
the value is `{username, password, email}`. -/
def marshalEntry (e : DockerConfigEntry) : List Char :=
  renderObject jsonString [("username", e.Username), ("password", e.Password), ("email", e.Email)]

/-- Modelled from the spec: `json.Marshal` at the type
`map[string]credentialprovider.DockerConfigEntry` (neither the encoder nor the entry
type is among the sources): a JSON object keyed by server address, section 6. The
encoder does not fail at this type. For the single-entry map that
`handleDockercfgContent` builds the order of the keys plays no role. -/
def jsonMarshal (cfg : DockerConfig) : String × Option Err :=
  (String.mk (renderObject marshalEntry cfg), none)

/-- The character denoted by the escape `\e`, for `e` other than `u`. -/
def unescape (e : Char) : Option Char :=
  if e = chQuote then some chQuote
  else if e = chBackslash then some chBackslash
  else if e = '/' then some '/'
  else if e = 'b' then some (Char.ofNat 8)
  else if e = 'f' then some (Char.ofNat 12)
  else if e = 'n' then some (Char.ofNat 10)
  else if e = 'r' then some (Char.ofNat 13)
  else if e = 't' then some (Char.ofNat 9)
  else none

/-- The character of a `\u` escape with value `n`; a value in the surrogate range
decodes to the replacement character (pairs are not combined). -/
def unicodeUnit (n : Nat) : Char :=
  if 55296 ≤ n ∧ n < 57344 then Char.ofNat 65533 else Char.ofNat n

/-- Modelled from the spec: the decoder of a JSON string, after its opening quote:
the decoded characters and the text after the closing quote. -/
def parseStringBody : List Char → Option (List Char × List Char)
  | [] => none
  | c :: rest =>
    if c = chQuote then some ([], rest)
    else if c = chBackslash then
      match rest with
      | [] => none
      | e :: rest1 =>
        if e = 'u' then
          match rest1 with
          | a :: b :: c1 :: d :: rest2 =>
            match hex4Value a b c1 d, parseStringBody rest2 with
            | some n, some (s, r) => some (unicodeUnit n :: s, r)
            | _, _ => none
          | _ => none
        else
          match unescape e, parseStringBody rest1 with
          | some ch, some (s, r) => some (ch :: s, r)
          | _, _ => none
    else if c.toNat < 32 then none
    else
      match parseStringBody rest with
      | some (s, r) => some (c :: s, r)
      | none => none

/-- Modelled from the spec: the decoder of a JSON string. -/
def parseString : List Char → Option (String × List Char)
  | [] => none
  | c :: rest =>
    if c = chQuote then
      match parseStringBody rest with
      | some (s, r) => some (String.mk s, r)
      | none => none
    else none

/-- Modelled from the spec: the decoder of the members of a JSON object up to and
including its closing brace, the values read by `pv`; `fuel` bounds the number of
members. -/
def parseMembers {α : Type} (pv : List Char → Option (α × List Char)) :
    Nat → List Char → Option (GoMap α × List Char)
  | 0, _ => none
  | fuel + 1, input =>
    match parseString input with
    | none => none
    | some (k, rest) =>
      match rest with
      | [] => none
      | c :: rest1 =>
        if c = ':' then
          match pv rest1 with
          | none => none
          | some (v, rest2) =>
            match rest2 with
            | [] => none
            | d :: rest3 =>
              if d = chClose then some ([(k, v)], rest3)
              else if d = ',' then
                match parseMembers pv fuel rest3 with
                | some (ms, r) => some ((k, v) :: ms, r)
                | none => none
              else none
        else none

/-- Modelled from the spec: the decoder of a JSON object, the values read by `pv`: the
members in the order of the text, and the text after the object. -/
def parseObject {α : Type} (pv : List Char → Option (α × List Char)) (input : List Char) :
    Option (GoMap α × List Char) :=
  match input with
  | [] => none
  | c :: rest =>
    if c = chOpen then
      match rest with
      | [] => none
      | d :: rest1 =>
        if d = chClose then some ([], rest1) else parseMembers pv input.length rest
    else none

/-- The map built from members read in order: a later member overwrites an earlier one
of the same key. -/
def membersToMap {α : Type} (members : GoMap α) : GoMap α :=
  members.foldl (fun m kv => mapSet m kv.1 kv.2) []

/-- Modelled from the spec: the `DockerConfigEntry` of a decoded JSON object, a missing
field keeping the zero value. -/
def entryOfMembers (members : GoMap String) : DockerConfigEntry :=
  let m := membersToMap members
  { Username := strIndex m "username", Password := strIndex m "password",
    Email := strIndex m "email" }

/-- Modelled from the spec: decoding a payload as the docker-config JSON shape, the
serializer that consumes such secrets (section 6, not among the sources): an object
keyed by server address whose values are objects with string members. -/
def jsonUnmarshal (data : String) : Option DockerConfig :=
  match parseObject (parseObject parseString) data.data with
  | some (members, []) => some (membersToMap (members.map (fun kv => (kv.1, entryOfMembers kv.2))))
  | _ => none

/-- The function `handleDockercfgContent`. -/
def handleDockercfgContent (username password email server : String) : String × Option Err :=
  let dockercfgAuth : DockerConfigEntry :=
    { Username := username, Password := password, Email := email }
  let dockerCfg : DockerConfig := mapSet [] server dockercfgAuth
  jsonMarshal dockerCfg

/-- The method `SecretForDockerRegistryGeneratorV1.ParamNames`. -/
def SecretForDockerRegistryGeneratorV1.ParamNames : List GeneratorParam :=
  [⟨"name", true⟩, ⟨"docker-username", true⟩, ⟨"docker-email", true⟩,
   ⟨"docker-password", true⟩, ⟨"docker-server", true⟩]

/-- The method `SecretForDockerRegistryGeneratorV1.Generate`. -/
def SecretForDockerRegistryGeneratorV1.Generate (api : ApiConstants) (genericParams : ParamMap) :
    Option Object × Option Err :=
  match ValidateParams SecretForDockerRegistryGeneratorV1.ParamNames genericParams with
  | some err => (none, some err)
  | none =>
    match rangeStrings genericParams [] with
    | Except.error err => (none, some err)
    | Except.ok params =>
      match handleDockercfgContent (strIndex params "docker-username")
          (strIndex params "docker-password") (strIndex params "docker-email")
          (strIndex params "docker-server") with
      | (_, some err) => (none, some err)
      | (dockercfgContent, none) =>
        (some (Object.secret
          { meta := { Name := strIndex params "name" }
            Type_ := api.SecretTypeDockercfg
            Data := mapSet [] api.DockerConfigKey dockercfgContent }), none)

/-! ## The create orchestration -/

/-- The interface `kubectl.Generator`. -/
structure Generator where
  ParamNames : List GeneratorParam
  Generate : ParamMap → Option Object × Option Err

/-- The value `NamespaceGeneratorV1{}` as a `Generator`. -/
def NamespaceGeneratorV1.generator : Generator :=
  { ParamNames := NamespaceGeneratorV1.ParamNames
    Generate := NamespaceGeneratorV1.Generate }

/-- The value `SecretForDockerRegistryGeneratorV1{}` as a `Generator`. -/
def SecretForDockerRegistryGeneratorV1.generator (api : ApiConstants) : Generator :=
  { ParamNames := SecretForDockerRegistryGeneratorV1.ParamNames
    Generate := SecretForDockerRegistryGeneratorV1.Generate api }

/-- The flag state of the `cobra.Command` that `createCommandInternal` reads. -/
structure Command where
  /-- The call `cmdutil.GetFlagString(cmd, name)`. -/
  GetFlagString : String → String
  /-- The call `cmdutil.GetFlagBool(cmd, name)`. -/
  GetFlagBool : String → Bool
  /-- The text of the flag `name`, when the command declares such a flag. -/
  LookupFlag : String → Option String

/-- The type `meta.RESTMapping`, as far as it is read. -/
structure RESTMapping where
  Resource : String
  deriving DecidableEq, Repr

/-- The REST client that `f.RESTClient(mapping)` returns. -/
structure RESTClient where
  id : String
  deriving DecidableEq, Repr

/-- The type `resource.Info`, as far as it is read. -/
structure Info where
  Object : Option Object
  deriving DecidableEq, Repr

/-- The collaborators of `createCommandInternal` reached through `cmdutil.Factory`,
`resource.Mapper`, `resource.Helper` and `kubectl.UpdateApplyAnnotation`; none of them
is among the sources, each is a parameter of the embedding. -/
structure Factory where
  DefaultNamespace : Except Err String
  /-- The registry lookup `f.Generator(name)`, `none` for `found = false`. -/
  Generator : String → Option Generator
  /-- The call `typer.ObjectVersionAndKind(obj)`: the version and the kind. -/
  ObjectVersionAndKind : Option Object → Except Err (String × String)
  /-- The call `mapper.RESTMapping(kind, version)`. -/
  RESTMapping : String → String → Except Err Kubectl.RESTMapping
  RESTClient : Kubectl.RESTMapping → Except Err RESTClient
  InfoForObject : Option Object → Except Err Info
  /-- The call `kubectl.UpdateApplyAnnotation(info)`: the info after the call. -/
  UpdateApplyAnnotation : Info → Except Err Info
  /-- The call `resource.NewHelper(client, mapping).Create(namespace, modify, obj)`. -/
  Create : Kubectl.RESTClient → Kubectl.RESTMapping → String → Bool → Option Object →
    Except Err (Option Object)
  /-- The error that `f.PrintObject(cmd, obj, cmdOut)` returns. -/
  PrintObject : Option Object → Option Err

/-- The calls that `createCommandInternal` makes on the outside world, in order. -/
inductive Effect where
  | annotate (info : Info)
  | create (ns : String) (modify : Bool) (obj : Option Object)
  | printObject (obj : Option Object)
  | printSuccess (resource name operation : String)
  deriving DecidableEq, Repr

/-- The effect is the apply-annotation step or a Create call. -/
def Effect.isSubmit : Effect → Bool
  | Effect.annotate _ => true
  | Effect.create _ _ _ => true
  | _ => false

/-- Modelled from the spec: `MakeParams` is defined in `pkg/kubectl/generate.go`, which
is not among the sources. Section 4.4, step 2 (a): the resolved generator's declared
parameter names pulled from ambient flag state, each flag as its text. -/
def MakeParams (cmd : Command) (params : List GeneratorParam) : ParamMap :=
  params.foldl
    (fun result p =>
      match cmd.LookupFlag p.Name with
      | some v => mapSet result p.Name (Value.str v)
      | none => result)
    []

/-- The error `cmdutil.UsageError(cmd, msg)` (the helper is not among the sources). -/
def UsageError (msg : String) : Err := Err.usage msg

/-- Lines 61-64 of `macro.go`: the generator flag, or the default when it is empty. -/
def resolveGeneratorName (cmd : Command) (defaultGenerator : String) : String :=
  if (cmd.GetFlagString "generator").length = 0 then defaultGenerator
  else cmd.GetFlagString "generator"

/-- Lines 70-77 of `macro.go`: the parameter map assembled from the flags, the
positional arguments `arg0 :: extra` and the visitor. -/
def assembleParams (cmd : Command) (names : List GeneratorParam) (arg0 : String)
    (extra : List String) (visitor : Option (Command → ParamMap → ParamMap)) : ParamMap :=
  let params := MakeParams cmd names
  let params := mapSet params "name" (Value.str arg0)
  let params := if (arg0 :: extra).length > 1 then mapSet params "args" (Value.strSlice extra)
    else params
  match visitor with
  | some visit => visit cmd params
  | none => params

/-- Lines 106-111 of `macro.go`: the result is reported, after the calls in `trace`. -/
def report (f : Factory) (cmd : Command) (mapping : RESTMapping) (arg0 : String)
    (obj : Option Object) (trace : List Effect) : Option Err × List Effect :=
  let outputFormat := cmd.GetFlagString "output"
  if outputFormat ≠ "" then (f.PrintObject obj, trace ++ [Effect.printObject obj])
  else (none, trace ++ [Effect.printSuccess mapping.Resource arg0 "created"])

/-- The function `createCommandInternal`: the error it returns and the calls it made on
the outside world. `rangeOrder` is the order in which the runtime lets the generator
visit the entries of the map it is handed. -/
def createCommandInternal (rangeOrder : ParamMap → ParamMap) (f : Factory) (cmd : Command)
    (args : List String) (defaultGenerator : String)
    (visitor : Option (Command → ParamMap → ParamMap)) : Option Err × List Effect :=
  match args with
  | [] => (some (UsageError "NAME is required"), [])
  | arg0 :: extra =>
    match f.DefaultNamespace with
    | Except.error err => (some err, [])
    | Except.ok ns =>
      let generatorName := resolveGeneratorName cmd defaultGenerator
      match f.Generator generatorName with
      | none => (some (UsageError ("Generator: " ++ generatorName ++ " not found.")), [])
      | some generator =>
        let names := generator.ParamNames
        let params := assembleParams cmd names arg0 extra visitor
        match ValidateParams names params with
        | some err => (some err, [])
        | none =>
          match generator.Generate (rangeOrder params) with
          | (_, some err) => (some err, [])
          | (obj, none) =>
            match f.ObjectVersionAndKind obj with
            | Except.error err => (some err, [])
            | Except.ok (version, kind) =>
              match f.RESTMapping kind version with
              | Except.error err => (some err, [])
              | Except.ok mapping =>
                match f.RESTClient mapping with
                | Except.error err => (some err, [])
                | Except.ok client =>
                  if !cmd.GetFlagBool "dry-run" then
                    match f.InfoForObject obj with
                    | Except.error err => (some err, [])
                    | Except.ok info =>
                      match Factory.UpdateApplyAnnotation f info with
                      | Except.error err => (some err, [Effect.annotate info])
                      | Except.ok info1 =>
                        match f.Create client mapping ns false info1.Object with
                        | Except.error err =>
                          (some err, [Effect.annotate info,
                            Effect.create ns false info1.Object])
                        | Except.ok obj1 =>
                          report f cmd mapping arg0 obj1
                            [Effect.annotate info, Effect.create ns false info1.Object]
                  else report f cmd mapping arg0 obj []

/-- The function `CreateNamespace` of `cmd/macro/namespace.go`. -/
def CreateNamespace (rangeOrder : ParamMap → ParamMap) (f : Factory) (cmd : Command)
    (args : List String) : Option Err × List Effect :=
  createCommandInternal rangeOrder f cmd args "namespace/v1" none

/-! ## The typed client of resourceQuotas -/

/-- The HTTP verb chosen by `client.Post()`, `Put()`, `Delete()` and `Get()`. -/
inductive Verb where
  | GET | POST | PUT | DELETE
  deriving DecidableEq, Repr

/-- The type `api.ListOptions`, as an uninterpreted bundle of selectors. -/
structure ListOptions where
  LabelSelector : String
  FieldSelector : String
  Watch : Bool
  ResourceVersion : String
  TimeoutSeconds : Option Int
  deriving DecidableEq, Repr

/-- The type `api.DeleteOptions`. -/
structure DeleteOptions where
  GracePeriodSeconds : Option Int
  deriving DecidableEq, Repr

/-- The type `api.ResourceQuota`, as far as the client reads it. -/
structure ResourceQuota where
  meta : ObjectMeta
  deriving DecidableEq, Repr

/-- The argument of `Body(...)`: the object, or the delete-options pointer. -/
inductive Body where
  | resourceQuota (q : ResourceQuota)
  | deleteOptions (o : Option DeleteOptions)
  deriving DecidableEq, Repr

/-- Modelled from the spec: the request builder of the REST client (`Request`, in
`pkg/client/unversioned`, is not among the sources). Section 3, Client Request State:
HTTP verb, Resource Identity, body (optional), query parameters (optional). Every
builder method records its argument in the field of its name; `params` holds query
parameters attached raw, `versionedParams` the options handed to the version-aware
encoder; `namespace_` is the field `namespace`. -/
structure Request where
  verb : Verb
  pathPrefix : List String := []
  namespaceSet : Bool := false
  namespace_ : String := ""
  resource : String := ""
  resourceName : String := ""
  params : GoMap String := []
  versionedParams : Option ListOptions := none
  body : Option Body := none
  deriving DecidableEq, Repr

/-- The builder method `Prefix(segments...)`. -/
def Request.Prefix (r : Request) (segment : String) : Request :=
  { r with pathPrefix := r.pathPrefix ++ [segment] }

/-- The builder method `Namespace(namespace)`. -/
def Request.Namespace (r : Request) (ns : String) : Request :=
  { r with namespaceSet := true, namespace_ := ns }

/-- The builder method `Resource(resource)`. -/
def Request.Resource (r : Request) (resource : String) : Request :=
  { r with resource := resource }

/-- The builder method `Name(resourceName)`. -/
def Request.Name (r : Request) (resourceName : String) : Request :=
  { r with resourceName := resourceName }

/-- The builder method `VersionedParams(&opts, api.Scheme)`. -/
def Request.VersionedParams (r : Request) (opts : ListOptions) : Request :=
  { r with versionedParams := some opts }

/-- The builder method `Body(obj)`. -/
def Request.Body (r : Request) (obj : Body) : Request :=
  { r with body := some obj }

/-- Modelled from the spec: the segments of the path of a request, section 4.3: the
prefix, `namespaces/{ns}` unless the namespace is empty (cluster-scoped kinds omit the
namespace path segment), the resource, the name. -/
def Request.pathSegments (r : Request) : List String :=
  r.pathPrefix
    ++ (if r.namespaceSet ∧ r.namespace_ ≠ "" then ["namespaces", r.namespace_] else [])
    ++ (if r.resource ≠ "" then [r.resource] else [])
    ++ (if r.resourceName ≠ "" then [r.resourceName] else [])

/-- The segments of a path written out, each after a slash. -/
def joinPath : List String → String
  | [] => ""
  | segment :: rest => "/" ++ segment ++ joinPath rest

/-- Modelled from the spec: the path of a request, section 4.3. -/
def Request.path (r : Request) : String :=
  joinPath r.pathSegments

/-- How a built request is issued: `Do().Into(result)`, `Do().Error()` or `Watch()`. -/
inductive Issue where
  | doInto | doError | watch
  deriving DecidableEq, Repr

/-- A request together with the way it is issued. -/
structure Call where
  request : Request
  issue : Issue
  deriving DecidableEq, Repr

/-- The call is a streaming request. -/
def Call.streaming (c : Call) : Bool := c.issue == Issue.watch

/-- The struct `resourceQuotas`; the `client` field only starts requests and is left out. -/
structure resourceQuotas where
  ns : String
  deriving DecidableEq, Repr

/-- The constructor `newResourceQuotas`. -/
def newResourceQuotas (ns : String) : resourceQuotas :=
  { ns := ns }

/-- The request issued by `resourceQuotas.Create`. -/
def resourceQuotas.Create (c : resourceQuotas) (resourceQuota : ResourceQuota) : Call :=
  { request := ((({ verb := Verb.POST } : Request).Namespace c.ns).Resource "resourceQuotas").Body
      (Body.resourceQuota resourceQuota)
    issue := Issue.doInto }

/-- The request issued by `resourceQuotas.Update`. -/
def resourceQuotas.Update (c : resourceQuotas) (resourceQuota : ResourceQuota) : Call :=
  { request := (((({ verb := Verb.PUT } : Request).Namespace c.ns).Resource "resourceQuotas").Name
      resourceQuota.meta.Name).Body (Body.resourceQuota resourceQuota)
    issue := Issue.doInto }

/-- The request issued by `resourceQuotas.Delete`. -/
def resourceQuotas.Delete (c : resourceQuotas) (name : String) (options : Option DeleteOptions) :
    Call :=
  { request := (((({ verb := Verb.DELETE } : Request).Namespace c.ns).Resource
      "resourceQuotas").Name name).Body (Body.deleteOptions options)
    issue := Issue.doError }

/-- The request issued by `resourceQuotas.DeleteCollection`. -/
def resourceQuotas.DeleteCollection (c : resourceQuotas) (options : Option DeleteOptions)
    (listOptions : ListOptions) : Call :=
  { request := (((({ verb := Verb.DELETE } : Request).Namespace c.ns).Resource
      "resourceQuotas").VersionedParams listOptions).Body (Body.deleteOptions options)
    issue := Issue.doError }

/-- The request issued by `resourceQuotas.Get`. -/
def resourceQuotas.Get (c : resourceQuotas) (name : String) : Call :=
  { request := ((({ verb := Verb.GET } : Request).Namespace c.ns).Resource "resourceQuotas").Name
      name
    issue := Issue.doInto }

/-- The request issued by `resourceQuotas.List`. -/
def resourceQuotas.List (c : resourceQuotas) (opts : ListOptions) : Call :=
  { request := ((({ verb := Verb.GET } : Request).Namespace c.ns).Resource
      "resourceQuotas").VersionedParams opts
    issue := Issue.doInto }

/-- The request issued by `resourceQuotas.Watch`. -/
def resourceQuotas.Watch (c : resourceQuotas) (opts : ListOptions) : Call :=
  { request := (((({ verb := Verb.GET } : Request).Prefix "watch").Namespace c.ns).Resource
      "resourceQuotas").VersionedParams opts
    issue := Issue.watch }

/-! ## Sample collaborators -/

/-- A command without parameter flags whose `generator` and `output` flags have the given
texts and whose `dry-run` flag has the given value. -/
def sampleCommand (generator output : String) (dryRun : Bool) : Command :=
  { GetFlagString := fun name =>
      if name = "generator" then generator else if name = "output" then output else ""
    GetFlagBool := fun name => if name = "dry-run" then dryRun else false
    LookupFlag := fun _ => none }

/-- A command that names the docker-registry generator and declares the four docker
flags, each with a text. -/
def sampleDockerCommand : Command :=
  { GetFlagString := fun name =>
      if name = "generator" then "secret-for-docker-registry/v1" else ""
    GetFlagBool := fun _ => false
    LookupFlag := fun name =>
      if name = "docker-username" then some "u"
      else if name = "docker-password" then some "p"
      else if name = "docker-email" then some "e@x.com"
      else if name = "docker-server" then some "s"
      else none }

/-- The values of `api.SecretTypeDockercfg` and `api.DockerConfigKey` used in examples. -/
def sampleApi : ApiConstants :=
  { SecretTypeDockercfg := "kubernetes.io/dockercfg", DockerConfigKey := ".dockercfg" }

/-- A factory whose registry holds the two generators, whose collaborators all succeed,
and whose server answers every Create with a namespace named `from-server`. -/
def sampleFactory : Factory :=
  { DefaultNamespace := Except.ok "default"
    Generator := fun name =>
      if name = "namespace/v1" then some NamespaceGeneratorV1.generator
      else if name = "secret-for-docker-registry/v1" then
        some (SecretForDockerRegistryGeneratorV1.generator sampleApi)
      else none
    ObjectVersionAndKind := fun _ => Except.ok ("v1", "Namespace")
    RESTMapping := fun _ _ => Except.ok { Resource := "namespaces" }
    RESTClient := fun _ => Except.ok { id := "client" }
    InfoForObject := fun obj => Except.ok { Object := obj }
    UpdateApplyAnnotation := fun info => Except.ok info
    Create := fun _ _ _ _ _ =>
      Except.ok (some (Object.namespace { meta := { Name := "from-server" } }))
    PrintObject := fun _ => none }

/-! ## Predicates used in the statements -/

/-- Keys are distinct and every value is a string. -/
def StringMap (m : ParamMap) : Prop :=
  KeysNodup m ∧ ∀ e ∈ m, ∃ s, e.2 = Value.str s

/-! # Properties -/

/-! ## Lemmas on maps -/

theorem mapGet_mapSet {β : Type} (m : GoMap β) (k : String) (v : β) (k1 : String) :
    mapGet (mapSet m k v) k1 = if k1 = k then some v else mapGet m k1 := by
  induction m with
  | nil => simp [mapSet, mapGet]
  | cons e rest ih =>
    obtain ⟨a, w⟩ := e
    by_cases h : k = a
    · subst h
      by_cases h1 : k1 = k <;> simp [mapSet, mapGet, h1]
    · by_cases h1 : k1 = a
      · subst h1
        have : ¬ k1 = k := fun hh => h hh.symm
        simp [mapSet, mapGet, h, this]
      · simp [mapSet, mapGet, h, h1, ih]

theorem mem_mapSet {β : Type} (m : GoMap β) (k : String) (v : β) (e : String × β)
    (h : e ∈ mapSet m k v) : e = (k, v) ∨ e ∈ m := by
  induction m with
  | nil => simpa [mapSet] using h
  | cons x rest ih =>
    obtain ⟨a, w⟩ := x
    by_cases hk : k = a
    · subst hk
      simp only [mapSet, if_true, List.mem_cons] at h
      rcases h with h | h
      · exact Or.inl h
      · exact Or.inr (List.mem_cons_of_mem _ h)
    · simp only [mapSet, hk, if_false, List.mem_cons] at h
      rcases h with h | h
      · exact Or.inr (h ▸ List.mem_cons_self _ _)
      · rcases ih h with h | h
        · exact Or.inl h
        · exact Or.inr (List.mem_cons_of_mem _ h)

theorem keys_mapSet {β : Type} (m : GoMap β) (k : String) (v : β) (a : String)
    (h : a ∈ (mapSet m k v).map Prod.fst) : a = k ∨ a ∈ m.map Prod.fst := by
  obtain ⟨e, he, rfl⟩ := List.mem_map.1 h
  rcases mem_mapSet m k v e he with h1 | h1
  · exact Or.inl (by rw [h1])
  · exact Or.inr (List.mem_map.2 ⟨e, h1, rfl⟩)

theorem keysNodup_mapSet {β : Type} (m : GoMap β) (k : String) (v : β) (h : KeysNodup m) :
    KeysNodup (mapSet m k v) := by
  induction m with
  | nil => simp [mapSet, KeysNodup]
  | cons x rest ih =>
    obtain ⟨a, w⟩ := x
    have hr : KeysNodup rest := (List.nodup_cons.1 h).2
    have ha : a ∉ rest.map Prod.fst := (List.nodup_cons.1 h).1
    by_cases hk : k = a
    · subst hk
      simpa [mapSet, KeysNodup] using h
    · simp only [mapSet, hk, if_false]
      refine List.nodup_cons.2 ⟨?_, ih hr⟩
      intro hmem
      rcases keys_mapSet rest k v a hmem with h1 | h1
      · exact hk h1.symm
      · exact ha h1

theorem mem_of_mapGet {β : Type} (m : GoMap β) (k : String) (v : β)
    (h : mapGet m k = some v) : (k, v) ∈ m := by
  induction m with
  | nil => simp [mapGet] at h
  | cons x rest ih =>
    obtain ⟨a, w⟩ := x
    by_cases hk : k = a
    · subst hk
      simp only [mapGet, if_true, Option.some.injEq] at h
      subst h
      exact List.mem_cons_self _ _
    · simp only [mapGet, hk, if_false] at h
      exact List.mem_cons_of_mem _ (ih h)

theorem mapGet_none_of_not_mem {β : Type} (m : GoMap β) (k : String)
    (h : k ∉ m.map Prod.fst) : mapGet m k = none := by
  cases hm : mapGet m k with
  | none => rfl
  | some v => exact absurd (List.mem_map.2 ⟨(k, v), mem_of_mapGet m k v hm, rfl⟩) h

theorem mapGet_of_mem {β : Type} (m : GoMap β) (k : String) (v : β) (hn : KeysNodup m)
    (h : (k, v) ∈ m) : mapGet m k = some v := by
  induction m with
  | nil => simp at h
  | cons x rest ih =>
    obtain ⟨a, w⟩ := x
    have hr : KeysNodup rest := (List.nodup_cons.1 hn).2
    have ha : a ∉ rest.map Prod.fst := (List.nodup_cons.1 hn).1
    rcases List.mem_cons.1 h with h1 | h1
    · injection h1 with h2 h3
      subst h2; subst h3
      simp [mapGet]
    · have hk : k ≠ a := by
        intro hh
        subst hh
        exact ha (List.mem_map.2 ⟨(k, v), h1, rfl⟩)
      simp only [mapGet, hk, if_false]
      exact ih hr h1

theorem keysNodup_perm {β : Type} (m m1 : GoMap β) (hp : m1.Perm m) (hn : KeysNodup m) :
    KeysNodup m1 :=
  ((hp.map Prod.fst).nodup_iff).2 hn

theorem mapGet_perm {β : Type} (m m1 : GoMap β) (hp : m1.Perm m) (hn : KeysNodup m)
    (k : String) : mapGet m1 k = mapGet m k := by
  cases h : mapGet m k with
  | some v =>
    exact mapGet_of_mem m1 k v (keysNodup_perm m m1 hp hn) (hp.mem_iff.2 (mem_of_mapGet m k v h))
  | none =>
    cases h1 : mapGet m1 k with
    | none => rfl
    | some v =>
      have := mapGet_of_mem m k v hn (hp.mem_iff.1 (mem_of_mapGet m1 k v h1))
      rw [h] at this
      exact absurd this (by simp)

theorem ValidateParams_perm (names : List GeneratorParam) (m m1 : ParamMap) (hp : m1.Perm m)
    (hn : KeysNodup m) : ValidateParams names m1 = ValidateParams names m := by
  induction names with
  | nil => rfl
  | cons p rest ih =>
    simp only [ValidateParams, mapGet_perm m m1 hp hn, ih]

/-- When every required name has a string value, validation passes. -/
theorem ValidateParams_of_strings (names : List GeneratorParam) (m : ParamMap)
    (h : ∀ p ∈ names, p.Required = true → ∃ s, mapGet m p.Name = some (Value.str s)) :
    ValidateParams names m = none := by
  induction names with
  | nil => rfl
  | cons p rest ih =>
    have ih1 := ih (fun q hq => h q (List.mem_cons_of_mem _ hq))
    by_cases hr : p.Required = true
    · obtain ⟨s, hs⟩ := h p (List.mem_cons_self _ _) hr
      simp [ValidateParams, hr, hs, ih1]
    · simp [ValidateParams, hr, ih1]

/-- A required name without an entry makes validation fail. -/
theorem ValidateParams_of_missing (names : List GeneratorParam) (m : ParamMap)
    (h : ∃ p ∈ names, p.Required = true ∧ mapGet m p.Name = none) :
    ∃ name, ValidateParams names m = some (Err.missingRequired name) := by
  induction names with
  | nil => obtain ⟨p, hp, _⟩ := h; simp at hp
  | cons q rest ih =>
    obtain ⟨p, hp, hreq, hnone⟩ := h
    by_cases hr : q.Required = true
    · cases hq : mapGet m q.Name with
      | none => exact ⟨q.Name, by simp [ValidateParams, hr, hq]⟩
      | some v =>
        cases v with
        | nil => exact ⟨q.Name, by simp [ValidateParams, hr, hq]⟩
        | str s =>
          rcases List.mem_cons.1 hp with h1 | h1
          · subst h1; rw [hq] at hnone; simp at hnone
          · obtain ⟨n, hn⟩ := ih ⟨p, h1, hreq, hnone⟩
            exact ⟨n, by simp [ValidateParams, hr, hq, hn]⟩
        | strSlice s =>
          rcases List.mem_cons.1 hp with h1 | h1
          · subst h1; rw [hq] at hnone; simp at hnone
          · obtain ⟨n, hn⟩ := ih ⟨p, h1, hreq, hnone⟩
            exact ⟨n, by simp [ValidateParams, hr, hq, hn]⟩
        | int s =>
          rcases List.mem_cons.1 hp with h1 | h1
          · subst h1; rw [hq] at hnone; simp at hnone
          · obtain ⟨n, hn⟩ := ih ⟨p, h1, hreq, hnone⟩
            exact ⟨n, by simp [ValidateParams, hr, hq, hn]⟩
        | bool s =>
          rcases List.mem_cons.1 hp with h1 | h1
          · subst h1; rw [hq] at hnone; simp at hnone
          · obtain ⟨n, hn⟩ := ih ⟨p, h1, hreq, hnone⟩
            exact ⟨n, by simp [ValidateParams, hr, hq, hn]⟩
    · rcases List.mem_cons.1 hp with h1 | h1
      · subst h1; exact absurd hreq hr
      · obtain ⟨n, hn⟩ := ih ⟨p, h1, hreq, hnone⟩
        exact ⟨n, by simp [ValidateParams, hr, hn]⟩

/-! ## Lemmas on the loop of the generators -/

/-- On a map of strings the loop copies every entry. -/
theorem rangeStrings_ok (m : ParamMap) (acc : GoMap String) (hn : KeysNodup m)
    (hs : ∀ e ∈ m, ∃ s, e.2 = Value.str s) :
    ∃ ps, rangeStrings m acc = Except.ok ps ∧
      ∀ k, mapGet ps k = (match mapGet m k with
        | some v => v.asString
        | none => mapGet acc k) := by
  induction m generalizing acc with
  | nil => exact ⟨acc, rfl, fun k => by simp [mapGet]⟩
  | cons x rest ih =>
    obtain ⟨a, w⟩ := x
    have hr : KeysNodup rest := (List.nodup_cons.1 hn).2
    have ha : a ∉ rest.map Prod.fst := (List.nodup_cons.1 hn).1
    obtain ⟨s, hw⟩ := hs (a, w) (List.mem_cons_self _ _)
    simp only at hw
    subst hw
    obtain ⟨ps, hps, hget⟩ := ih (mapSet acc a s) hr
      (fun e he => hs e (List.mem_cons_of_mem _ he))
    refine ⟨ps, by simp [rangeStrings, Value.asString, hps], fun k => ?_⟩
    rw [hget k]
    by_cases hk : k = a
    · subst hk
      simp [mapGet, mapGet_none_of_not_mem rest k ha, mapGet_mapSet, Value.asString]
    · simp only [mapGet, hk, if_false]
      cases mapGet rest k with
      | some v => rfl
      | none => simp [mapGet_mapSet, hk]

/-- The loop fails exactly with the first entry visited whose value is not a string. -/
theorem rangeStrings_error (m : ParamMap) (acc : GoMap String)
    (hx : ∃ e ∈ m, e.2.asString = none) :
    ∃ k v, (k, v) ∈ m ∧ v.asString = none ∧
      rangeStrings m acc = Except.error (Err.expectedString v k) := by
  induction m generalizing acc with
  | nil => obtain ⟨e, he, _⟩ := hx; simp at he
  | cons x rest ih =>
    obtain ⟨a, w⟩ := x
    cases hw : w.asString with
    | none => exact ⟨a, w, List.mem_cons_self _ _, hw, by simp [rangeStrings, hw]⟩
    | some s =>
      obtain ⟨e, he, hnone⟩ := hx
      rcases List.mem_cons.1 he with h1 | h1
      · subst h1; simp only at hnone; rw [hw] at hnone; simp at hnone
      · obtain ⟨k, v, hmem, hv, hrun⟩ := ih (mapSet acc a s) ⟨e, h1, hnone⟩
        exact ⟨k, v, List.mem_cons_of_mem _ hmem, hv, by simp [rangeStrings, hw, hrun]⟩

/-! ## The generators -/

/-- C1. NamespaceGeneratorV1.Generate: on a parameter map in which every value is a
string and "name" maps to a non-empty string n, Generate returns no error and a
Namespace object whose Name field is n. -/
theorem namespace_generate_name (params : ParamMap) (n : String) (hk : KeysNodup params)
    (hs : ∀ e ∈ params, ∃ s, e.2 = Value.str s)
    (hn : mapGet params "name" = some (Value.str n)) (_hne : n ≠ "") :
    NamespaceGeneratorV1.Generate params
        = (some (Object.namespace { meta := { Name := n } }), none) ∧
      ∀ obj, (NamespaceGeneratorV1.Generate params).1 = some obj → obj.Name = n := by
  have hv : ValidateParams NamespaceGeneratorV1.ParamNames params = none := by
    apply ValidateParams_of_strings
    intro p hp _
    simp only [NamespaceGeneratorV1.ParamNames, List.mem_singleton] at hp
    subst hp
    exact ⟨n, hn⟩
  obtain ⟨ps, hps, hget⟩ := rangeStrings_ok params [] hk hs
  have hname : strIndex ps "name" = n := by
    simp [strIndex, hget "name", hn, Value.asString]
  have hgen : NamespaceGeneratorV1.Generate params
      = (some (Object.namespace { meta := { Name := n } }), none) := by
    simp [NamespaceGeneratorV1.Generate, hv, hps, hname]
  refine ⟨hgen, fun obj hobj => ?_⟩
  rw [hgen] at hobj
  simp only [Option.some.injEq] at hobj
  subst hobj
  rfl

/-- The example of the spec: the map with the single entry name = "my-namespace". -/
theorem namespace_generate_name_witness :
    NamespaceGeneratorV1.Generate [("name", Value.str "my-namespace")]
        = (some (Object.namespace { meta := { Name := "my-namespace" } }), none) ∧
      ∀ obj, (NamespaceGeneratorV1.Generate [("name", Value.str "my-namespace")]).1 = some obj →
        obj.Name = "my-namespace" :=
  namespace_generate_name [("name", Value.str "my-namespace")] "my-namespace" (by decide)
    (by intro e he; simp only [List.mem_singleton] at he; subst he; exact ⟨_, rfl⟩)
    (by decide) (by decide)

/-- C2. SecretForDockerRegistryGeneratorV1.Generate: on a parameter map in which every
value is a string and the five required names are present, Generate returns no error
and a Secret whose Name is the value of "name", whose Type is the docker-config secret
type and whose Data has exactly one entry, under the docker-config key, holding the
JSON encoding of the single-entry mapping docker-server -> (username, password, email)
built from those parameter values. -/
theorem secret_generate_payload (api : ApiConstants) (params : ParamMap)
    (n u e p s : String) (hk : KeysNodup params)
    (hs : ∀ x ∈ params, ∃ t, x.2 = Value.str t)
    (hn : mapGet params "name" = some (Value.str n))
    (hu : mapGet params "docker-username" = some (Value.str u))
    (he : mapGet params "docker-email" = some (Value.str e))
    (hp : mapGet params "docker-password" = some (Value.str p))
    (hsv : mapGet params "docker-server" = some (Value.str s)) :
    SecretForDockerRegistryGeneratorV1.Generate api params
      = (some (Object.secret
          { meta := { Name := n }
            Type_ := api.SecretTypeDockercfg
            Data := [(api.DockerConfigKey,
              (jsonMarshal [(s, { Username := u, Password := p, Email := e })]).1)] }),
         none) := by
  have hv : ValidateParams SecretForDockerRegistryGeneratorV1.ParamNames params = none := by
    apply ValidateParams_of_strings
    intro q hq _
    simp only [SecretForDockerRegistryGeneratorV1.ParamNames, List.mem_cons,
      List.mem_singleton, List.not_mem_nil, or_false] at hq
    rcases hq with h | h | h | h | h <;> subst h
    · exact ⟨n, hn⟩
    · exact ⟨u, hu⟩
    · exact ⟨e, he⟩
    · exact ⟨p, hp⟩
    · exact ⟨s, hsv⟩
  obtain ⟨ps, hps, hget⟩ := rangeStrings_ok params [] hk hs
  have h1 : strIndex ps "name" = n := by simp [strIndex, hget "name", hn, Value.asString]
  have h2 : strIndex ps "docker-username" = u := by
    simp [strIndex, hget "docker-username", hu, Value.asString]
  have h3 : strIndex ps "docker-email" = e := by
    simp [strIndex, hget "docker-email", he, Value.asString]
  have h4 : strIndex ps "docker-password" = p := by
    simp [strIndex, hget "docker-password", hp, Value.asString]
  have h5 : strIndex ps "docker-server" = s := by
    simp [strIndex, hget "docker-server", hsv, Value.asString]
  simp [SecretForDockerRegistryGeneratorV1.Generate, hv, hps, h1, h2, h3, h4, h5,
    handleDockercfgContent, jsonMarshal, mapSet]

/-- The example of the spec, the payload written out. -/
theorem secret_generate_payload_witness :
    SecretForDockerRegistryGeneratorV1.Generate sampleApi
        [("name", Value.str "n"), ("docker-username", Value.str "u"),
         ("docker-password", Value.str "p"), ("docker-email", Value.str "e@x.com"),
         ("docker-server", Value.str "s")]
      = (some (Object.secret
          { meta := { Name := "n" }
            Type_ := "kubernetes.io/dockercfg"
            Data := [(".dockercfg",
              (jsonMarshal [("s", { Username := "u", Password := "p", Email := "e@x.com" })]).1)] }),
         none) ∧
      (jsonMarshal [("s", { Username := "u", Password := "p", Email := "e@x.com" })]).1
        = "\x7b\"s\":\x7b\"username\":\"u\",\"password\":\"p\",\"email\":\"e@x.com\"\x7d\x7d" :=
  ⟨secret_generate_payload sampleApi _ "n" "u" "e@x.com" "p" "s"
    (by decide)
    (by
      intro x hx
      simp only [List.mem_cons, List.mem_singleton, List.not_mem_nil, or_false] at hx
      rcases hx with h | h | h | h | h <;> subst h <;> exact ⟨_, rfl⟩)
    (by decide) (by decide) (by decide) (by decide) (by decide), by decide⟩

/-- C3. For each generator and every parameter map from which a name that the generator
declares as required is absent, Generate validates against its own ParamNames and
returns the validation error together with no object. -/
theorem generate_missing_required (api : ApiConstants) (g : Generator)
    (hg : g = NamespaceGeneratorV1.generator ∨
      g = SecretForDockerRegistryGeneratorV1.generator api)
    (params : ParamMap)
    (hm : ∃ p ∈ g.ParamNames, p.Required = true ∧ mapGet params p.Name = none) :
    ∃ name, ValidateParams g.ParamNames params = some (Err.missingRequired name) ∧
      g.Generate params = (none, some (Err.missingRequired name)) := by
  obtain ⟨name, hname⟩ := ValidateParams_of_missing g.ParamNames params hm
  refine ⟨name, hname, ?_⟩
  rcases hg with h | h <;> subst h
  · simp only [NamespaceGeneratorV1.generator] at hname ⊢
    simp [NamespaceGeneratorV1.Generate, hname]
  · simp only [SecretForDockerRegistryGeneratorV1.generator] at hname ⊢
    simp [SecretForDockerRegistryGeneratorV1.Generate, hname]

/-- Generate on the empty map fails for both generators, with no object. -/
theorem generate_missing_required_witness :
    (∃ name, ValidateParams NamespaceGeneratorV1.generator.ParamNames [] =
        some (Err.missingRequired name) ∧
      NamespaceGeneratorV1.generator.Generate [] = (none, some (Err.missingRequired name))) ∧
    (∃ name,
      ValidateParams
          (SecretForDockerRegistryGeneratorV1.generator sampleApi).ParamNames
          [] = some (Err.missingRequired name) ∧
      (SecretForDockerRegistryGeneratorV1.generator sampleApi).Generate []
        = (none, some (Err.missingRequired name))) :=
  ⟨generate_missing_required sampleApi _ (Or.inl rfl) []
      ⟨⟨"name", true⟩, by decide, rfl, rfl⟩,
   generate_missing_required sampleApi _ (Or.inr rfl) []
      ⟨⟨"name", true⟩, by decide, rfl, rfl⟩⟩

/-- Both generators return the error of the loop, and no object, once validation has
passed. -/
theorem generate_of_loop_error (api : ApiConstants) (g : Generator)
    (hg : g = NamespaceGeneratorV1.generator ∨
      g = SecretForDockerRegistryGeneratorV1.generator api)
    (visited : ParamMap) (err : Err)
    (hv : ValidateParams g.ParamNames visited = none)
    (hrun : rangeStrings visited [] = Except.error err) :
    g.Generate visited = (none, some err) := by
  rcases hg with h | h <;> subst h
  · simp only [NamespaceGeneratorV1.generator] at hv ⊢
    simp [NamespaceGeneratorV1.Generate, hv, hrun]
  · simp only [SecretForDockerRegistryGeneratorV1.generator] at hv ⊢
    simp [SecretForDockerRegistryGeneratorV1.Generate, hv, hrun]

/-- C4. For each generator and every parameter map that passes validation and holds a
value that is not a string, Generate fails with the expected-string error of an entry
of the map whose value is not a string, and returns no object, in whatever order the
entries of the map are visited. -/
theorem generate_non_string (api : ApiConstants) (g : Generator)
    (hg : g = NamespaceGeneratorV1.generator ∨
      g = SecretForDockerRegistryGeneratorV1.generator api)
    (params : ParamMap) (hk : KeysNodup params)
    (hv : ValidateParams g.ParamNames params = none)
    (hx : ∃ e ∈ params, e.2.asString = none)
    (visited : ParamMap) (hp : visited.Perm params) :
    ∃ k v, (k, v) ∈ params ∧ v.asString = none ∧
      g.Generate visited = (none, some (Err.expectedString v k)) := by
  have hv1 : ValidateParams g.ParamNames visited = none := by
    rw [ValidateParams_perm g.ParamNames params visited hp hk]; exact hv
  have hx1 : ∃ e ∈ visited, e.2.asString = none := by
    obtain ⟨e, he, h⟩ := hx
    exact ⟨e, hp.mem_iff.2 he, h⟩
  obtain ⟨k, v, hmem, hnone, hrun⟩ := rangeStrings_error visited [] hx1
  exact ⟨k, v, hp.mem_iff.1 hmem, hnone, generate_of_loop_error api g hg visited _ hv1 hrun⟩

/-- The map name = "n", replicas = 3, visited in the other order, fails on replicas. -/
theorem generate_non_string_witness :
    ∃ k v, (k, v) ∈ [("name", Value.str "n"), ("replicas", Value.int 3)] ∧
      v.asString = none ∧
      NamespaceGeneratorV1.generator.Generate [("replicas", Value.int 3), ("name", Value.str "n")]
        = (none, some (Err.expectedString v k)) :=
  generate_non_string sampleApi _ (Or.inl rfl)
    [("name", Value.str "n"), ("replicas", Value.int 3)] (by decide) (by decide)
    ⟨("replicas", Value.int 3), by decide, rfl⟩
    [("replicas", Value.int 3), ("name", Value.str "n")] (List.Perm.swap _ _ _)

/-! ## The JSON text round-trips -/

theorem hexValue_hexDigit (d : Nat) (h : d < 16) : hexValue (hexDigit d) = some d := by
  interval_cases d <;> decide

theorem hex4Value_hex4 (n : Nat) (h : n < 65536) :
    hex4Value (hexDigit (n / 4096 % 16)) (hexDigit (n / 256 % 16)) (hexDigit (n / 16 % 16))
      (hexDigit (n % 16)) = some n := by
  simp only [hex4Value, hexValue_hexDigit _ (Nat.mod_lt _ (by decide : 16 > 0))]
  congr 1
  omega

theorem needsUnicodeEscape_lt (c : Char) (h : needsUnicodeEscape c = true) : c.toNat < 8234 := by
  simp only [needsUnicodeEscape, Bool.or_eq_true, decide_eq_true_eq, beq_iff_eq] at h
  rcases h with ((((h | h) | h) | h) | h) | h
  · omega
  · subst h; decide
  · subst h; decide
  · subst h; decide
  · omega
  · omega

theorem unicodeUnit_toNat (c : Char) (h : c.toNat < 8234) : unicodeUnit c.toNat = c := by
  have h1 : ¬ (55296 ≤ c.toNat ∧ c.toNat < 57344) := by omega
  simp only [unicodeUnit, h1, if_false]
  exact Char.ofNat_toNat c

theorem psb_quote (rest : List Char) : parseStringBody (chQuote :: rest) = some ([], rest) := by
  rw [parseStringBody.eq_def]
  simp

theorem psb_plain (c : Char) (rest : List Char) (h1 : c ≠ chQuote) (h2 : c ≠ chBackslash) (h3 : ¬ c.toNat < 32) :
    parseStringBody (c :: rest) = match parseStringBody rest with
      | some (s, r) => some (c :: s, r)
      | none => none := by
  rw [parseStringBody.eq_def]
  simp [h1, h2, h3]

theorem psb_escape (e : Char) (rest : List Char) (h1 : e ≠ 'u') :
    parseStringBody (chBackslash :: e :: rest) = match unescape e, parseStringBody rest with
      | some ch, some (s, r) => some (ch :: s, r)
      | _, _ => none := by
  have hbq : chBackslash ≠ chQuote := by decide
  rw [parseStringBody.eq_def]
  simp [h1, hbq]

/-- The decoder reads back the text of one character. -/
theorem parseStringBody_escapeChar (c : Char) (rest s r : List Char)
    (h : parseStringBody rest = some (s, r)) :
    parseStringBody (escapeChar c ++ rest) = some (c :: s, r) := by
  have hbq : chBackslash ≠ chQuote := by decide
  by_cases h1 : c = chQuote
  · subst h1
    have e1 : escapeChar chQuote = [chBackslash, chQuote] := by decide
    have e2 : unescape chQuote = some chQuote := by decide
    rw [e1, List.cons_append, List.cons_append, List.nil_append,
      psb_escape chQuote rest (by decide), e2, h]
  by_cases h2 : c = chBackslash
  · subst h2
    have e1 : escapeChar chBackslash = [chBackslash, chBackslash] := by decide
    have e2 : unescape chBackslash = some chBackslash := by decide
    rw [e1, List.cons_append, List.cons_append, List.nil_append,
      psb_escape chBackslash rest (by decide), e2, h]
  by_cases h3 : c = Char.ofNat 10
  · subst h3
    have e1 : escapeChar (Char.ofNat 10) = [chBackslash, 'n'] := by decide
    have e2 : unescape 'n' = some (Char.ofNat 10) := by decide
    rw [e1, List.cons_append, List.cons_append, List.nil_append,
      psb_escape 'n' rest (by decide), e2, h]
  by_cases h4 : c = Char.ofNat 13
  · subst h4
    have e1 : escapeChar (Char.ofNat 13) = [chBackslash, 'r'] := by decide
    have e2 : unescape 'r' = some (Char.ofNat 13) := by decide
    rw [e1, List.cons_append, List.cons_append, List.nil_append,
      psb_escape 'r' rest (by decide), e2, h]
  by_cases h5 : c = Char.ofNat 9
  · subst h5
    have e1 : escapeChar (Char.ofNat 9) = [chBackslash, 't'] := by decide
    have e2 : unescape 't' = some (Char.ofNat 9) := by decide
    rw [e1, List.cons_append, List.cons_append, List.nil_append,
      psb_escape 't' rest (by decide), e2, h]
  by_cases h6 : needsUnicodeEscape c = true
  · have hlt := needsUnicodeEscape_lt c h6
    have e1 : escapeChar c = chBackslash :: 'u' :: hex4 c.toNat := by
      simp [escapeChar, h1, h2, h3, h4, h5, h6]
    rw [e1]
    simp [hex4, parseStringBody, hbq, hex4Value_hex4 c.toNat (by omega), h,
      unicodeUnit_toNat c hlt]
  · have e1 : escapeChar c = [c] := by
      simp [escapeChar, h1, h2, h3, h4, h5, h6]
    have hge : ¬ c.toNat < 32 := by
      intro hlt
      apply h6
      simp [needsUnicodeEscape, hlt]
    rw [e1, List.cons_append, List.nil_append, psb_plain c rest h1 h2 hge, h]

theorem parseStringBody_flatMap (s rest : List Char) :
    parseStringBody (s.flatMap escapeChar ++ chQuote :: rest) = some (s, rest) := by
  induction s with
  | nil => simpa using psb_quote rest
  | cons c cs ih =>
    rw [List.flatMap_cons, List.append_assoc]
    exact parseStringBody_escapeChar c _ cs rest ih

/-- The decoder reads back the text of a string, whatever follows it. -/
theorem parseString_jsonString (s : String) (rest : List Char) :
    parseString (jsonString s ++ rest) = some (s, rest) := by
  simp [jsonString, parseString, parseStringBody_flatMap]

/-- The decoder reads back the members of an object, given enough fuel. -/
theorem parseMembers_renderMembers {α β : Type} (rv : α → List Char)
    (pv : List Char → Option (β × List Char)) (f : α → β)
    (hv : ∀ a rest, pv (rv a ++ rest) = some (f a, rest))
    (ms : GoMap α) (hne : ms ≠ []) (fuel : Nat) (hfuel : ms.length ≤ fuel) (rest : List Char) :
    parseMembers pv fuel (renderMembers rv ms ++ chClose :: rest)
      = some (ms.map (fun kv => (kv.1, f kv.2)), rest) := by
  induction ms generalizing fuel with
  | nil => exact absurd rfl hne
  | cons x xs ih =>
    obtain ⟨k, v⟩ := x
    cases fuel with
    | zero => simp at hfuel
    | succ fuel =>
      have hcc : chClose ≠ ',' := by decide
      cases xs with
      | nil =>
        simp [renderMembers, parseMembers, parseString_jsonString, hv]
      | cons y ys =>
        have ih1 := ih (by simp) fuel (by simpa using hfuel)
        have e : renderMembers rv ((k, v) :: y :: ys) ++ chClose :: rest
            = jsonString k ++ (':' :: (rv v ++ (',' :: (renderMembers rv (y :: ys) ++ chClose :: rest)))) := by
          simp [renderMembers]
        rw [e]
        have hcomma : (',' : Char) ≠ chClose := by decide
        simp only [parseMembers, parseString_jsonString, hv, if_true, hcomma, if_false, ih1]
        simp

theorem length_le_renderMembers {α : Type} (rv : α → List Char) (ms : GoMap α) :
    ms.length ≤ (renderMembers rv ms).length := by
  induction ms with
  | nil => simp
  | cons x xs ih =>
    obtain ⟨k, v⟩ := x
    cases xs with
    | nil => simp [renderMembers, jsonString]
    | cons y ys =>
      simp only [renderMembers, List.length_append, List.length_cons, jsonString] at ih ⊢
      omega

/-- The decoder reads back an object, whatever follows it. -/
theorem parseObject_renderObject {α β : Type} (rv : α → List Char)
    (pv : List Char → Option (β × List Char)) (f : α → β)
    (hv : ∀ a rest, pv (rv a ++ rest) = some (f a, rest))
    (ms : GoMap α) (rest : List Char) :
    parseObject pv (renderObject rv ms ++ rest)
      = some (ms.map (fun kv => (kv.1, f kv.2)), rest) := by
  cases ms with
  | nil => simp [renderObject, renderMembers, parseObject]
  | cons x xs =>
    have hlen := length_le_renderMembers rv (x :: xs)
    have hm := parseMembers_renderMembers rv pv f hv (x :: xs) (by simp)
      (renderObject rv (x :: xs) ++ rest).length
      (by simp only [renderObject, List.length_append, List.length_cons] at hlen ⊢; omega) rest
    obtain ⟨t, ht⟩ : ∃ t, renderMembers rv (x :: xs) = chQuote :: t := by
      obtain ⟨k, v⟩ := x
      cases xs with
      | nil => exact ⟨_, by simp [renderMembers, jsonString]; rfl⟩
      | cons y ys => exact ⟨_, by simp [renderMembers, jsonString]; rfl⟩
    have hqc : chQuote ≠ chClose := by decide
    have e : renderObject rv (x :: xs) ++ rest
        = chOpen :: (renderMembers rv (x :: xs) ++ chClose :: rest) := by
      simp [renderObject]
    rw [e] at hm ⊢
    rw [ht] at hm ⊢
    simp only [parseObject, if_true, List.cons_append, hqc, if_false]
    exact hm

/-- C5. Round trip of the docker-config payload: decoding the bytes returned by
handleDockercfgContent(username, password, email, server) as the docker-config JSON
shape yields the mapping with exactly one key, server, whose entry has exactly the
original username, password and email; the encoding returns no error. -/
theorem dockercfg_round_trip (username password email server : String) :
    (handleDockercfgContent username password email server).2 = none ∧
    jsonUnmarshal (handleDockercfgContent username password email server).1
      = some [(server, { Username := username, Password := password, Email := email })] := by
  refine ⟨rfl, ?_⟩
  have hinner : ∀ (e : DockerConfigEntry) (rest : List Char),
      parseObject parseString (marshalEntry e ++ rest)
        = some ([("username", e.Username), ("password", e.Password), ("email", e.Email)], rest) := by
    intro e rest
    have := parseObject_renderObject jsonString parseString id
      (fun a r => parseString_jsonString a r)
      [("username", e.Username), ("password", e.Password), ("email", e.Email)] rest
    simpa [marshalEntry] using this
  have houter := parseObject_renderObject marshalEntry (parseObject parseString)
    (fun e => [("username", e.Username), ("password", e.Password), ("email", e.Email)])
    hinner [(server, { Username := username, Password := password, Email := email })] []
  simp only [List.append_nil] at houter
  simp only [handleDockercfgContent, jsonMarshal, jsonUnmarshal, mapSet, houter]
  simp [membersToMap, entryOfMembers, mapSet, strIndex, mapGet]

/-! ## The typed client -/

/-- C8. Typed client request shape: every operation of the resourceQuotas client bound
to namespace ns builds its request with namespace ns and the same resource name; Create
is POST on the collection with the object as body; Update is PUT on the item named by
the object's own Name; Get is GET and Delete is DELETE on the item of the given name;
List is GET and DeleteCollection is DELETE on the collection, with the list-options
attached only through VersionedParams, DeleteCollection carrying the delete-options as
body. -/
theorem resourceQuotas_request_shape (c : resourceQuotas) (q : ResourceQuota) (name : String)
    (options : Option DeleteOptions) (opts : ListOptions) :
    (∀ call ∈ [c.Create q, c.Update q, c.Delete name options, c.DeleteCollection options opts,
        c.Get name, c.List opts, c.Watch opts],
      call.request.namespaceSet = true ∧ call.request.namespace_ = c.ns ∧
        call.request.resource = "resourceQuotas" ∧ call.request.params = []) ∧
    ((c.Create q).request.verb = Verb.POST ∧ (c.Create q).request.resourceName = "" ∧
      (c.Create q).request.body = some (Body.resourceQuota q) ∧
      (c.Create q).request.versionedParams = none) ∧
    ((c.Update q).request.verb = Verb.PUT ∧ (c.Update q).request.resourceName = q.meta.Name ∧
      (c.Update q).request.body = some (Body.resourceQuota q) ∧
      (c.Update q).request.versionedParams = none) ∧
    ((c.Get name).request.verb = Verb.GET ∧ (c.Get name).request.resourceName = name ∧
      (c.Get name).request.body = none ∧ (c.Get name).request.versionedParams = none) ∧
    ((c.Delete name options).request.verb = Verb.DELETE ∧
      (c.Delete name options).request.resourceName = name ∧
      (c.Delete name options).request.body = some (Body.deleteOptions options) ∧
      (c.Delete name options).request.versionedParams = none) ∧
    ((c.List opts).request.verb = Verb.GET ∧ (c.List opts).request.resourceName = "" ∧
      (c.List opts).request.body = none ∧
      (c.List opts).request.versionedParams = some opts) ∧
    ((c.DeleteCollection options opts).request.verb = Verb.DELETE ∧
      (c.DeleteCollection options opts).request.resourceName = "" ∧
      (c.DeleteCollection options opts).request.body = some (Body.deleteOptions options) ∧
      (c.DeleteCollection options opts).request.versionedParams = some opts) := by
  refine ⟨?_, ?_, ?_, ?_, ?_, ?_, ?_⟩
  · intro call hcall
    simp only [List.mem_cons, List.mem_singleton, List.not_mem_nil, or_false] at hcall
    rcases hcall with h | h | h | h | h | h | h <;> subst h <;> exact ⟨rfl, rfl, rfl, rfl⟩
  all_goals exact ⟨rfl, rfl, rfl, rfl⟩

theorem joinPath_cons (segment : String) (rest : List String) :
    joinPath (segment :: rest) = "/" ++ segment ++ joinPath rest := rfl

/-- C9, as the code has it. List and Watch on the same client carry the same namespace,
resource and list-options, the options attached through VersionedParams only; List
targets /namespaces/(ns)/(resource) and Watch targets the same path under the prefix
/watch; they differ in that prefix and in that Watch is issued as a streaming request. -/
theorem list_watch_paths (c : resourceQuotas) (opts : ListOptions) :
    (c.List opts).request.pathSegments
        = (if c.ns ≠ "" then ["namespaces", c.ns] else []) ++ ["resourceQuotas"] ∧
    (c.Watch opts).request.pathSegments = "watch" :: (c.List opts).request.pathSegments ∧
    (c.Watch opts).request.path = "/watch" ++ (c.List opts).request.path ∧
    (c.Watch opts).request = { (c.List opts).request with pathPrefix := ["watch"] } ∧
    (c.List opts).request.versionedParams = some opts ∧
    (c.Watch opts).request.versionedParams = some opts ∧
    (c.List opts).request.params = [] ∧ (c.Watch opts).request.params = [] ∧
    (c.List opts).streaming = false ∧ (c.Watch opts).streaming = true := by
  have hseg : (c.Watch opts).request.pathSegments
      = "watch" :: (c.List opts).request.pathSegments := by
    simp [resourceQuotas.Watch, resourceQuotas.List, Request.pathSegments, Request.Prefix,
      Request.Namespace, Request.Resource, Request.VersionedParams]
  refine ⟨?_, hseg, ?_, rfl, rfl, rfl, rfl, rfl, rfl, rfl⟩
  · simp [resourceQuotas.List, Request.pathSegments, Request.Namespace, Request.Resource,
      Request.VersionedParams]
  · simp only [Request.path, hseg, joinPath_cons]
    rfl

/-- C9, as the spec has it, fails: in namespace ns1 the path of Watch is not the path of
List. -/
theorem list_watch_same_path_counterexample :
    (resourceQuotas.List ⟨"ns1"⟩ ⟨"", "", false, "", none⟩).request.path
        = "/namespaces/ns1/resourceQuotas" ∧
    (resourceQuotas.Watch ⟨"ns1"⟩ ⟨"", "", false, "", none⟩).request.path
        = "/watch/namespaces/ns1/resourceQuotas" ∧
    (resourceQuotas.Watch ⟨"ns1"⟩ ⟨"", "", false, "", none⟩).request.path
        ≠ (resourceQuotas.List ⟨"ns1"⟩ ⟨"", "", false, "", none⟩).request.path := by
  decide

/-! ## The create orchestration -/

theorem string_eq_empty_of_length (s : String) (h : s.length = 0) : s = "" := by
  cases s with
  | mk l =>
    have hl : l = [] := List.length_eq_zero.1 h
    subst hl
    rfl

/-- C6. Dry-run in createCommandInternal: when the dry-run flag is set and generation
succeeds, neither the apply-annotation step nor a Create call is performed, and the
only object handed to the printer is the object returned by Generate, unchanged. -/
theorem dry_run_reports_generated (rangeOrder : ParamMap → ParamMap) (f : Factory)
    (cmd : Command) (arg0 : String) (extra : List String) (defaultGenerator : String)
    (visitor : Option (Command → ParamMap → ParamMap)) (ns : String) (g : Generator)
    (obj : Option Object)
    (hns : f.DefaultNamespace = Except.ok ns)
    (hg : f.Generator (resolveGeneratorName cmd defaultGenerator) = some g)
    (hval : ValidateParams g.ParamNames (assembleParams cmd g.ParamNames arg0 extra visitor) = none)
    (hgen : g.Generate (rangeOrder (assembleParams cmd g.ParamNames arg0 extra visitor))
      = (obj, none))
    (hdry : cmd.GetFlagBool "dry-run" = true) :
    (∀ e ∈ (createCommandInternal rangeOrder f cmd (arg0 :: extra) defaultGenerator visitor).2,
      e.isSubmit = false ∧
        (e = Effect.printObject obj ∨ ∃ resource, e = Effect.printSuccess resource arg0 "created")) ∧
    (∀ version kind mapping client, f.ObjectVersionAndKind obj = Except.ok (version, kind) →
      f.RESTMapping kind version = Except.ok mapping → f.RESTClient mapping = Except.ok client →
      cmd.GetFlagString "output" ≠ "" →
      createCommandInternal rangeOrder f cmd (arg0 :: extra) defaultGenerator visitor
        = (f.PrintObject obj, [Effect.printObject obj])) := by
  constructor
  · intro e he
    simp only [createCommandInternal, hns, hg, hval, hgen, hdry] at he
    cases h1 : f.ObjectVersionAndKind obj with
    | error err => simp [h1] at he
    | ok vk =>
      obtain ⟨version, kind⟩ := vk
      simp only [h1] at he
      cases h2 : f.RESTMapping kind version with
      | error err => simp [h2] at he
      | ok mapping =>
        simp only [h2] at he
        cases h3 : f.RESTClient mapping with
        | error err => simp [h3] at he
        | ok client =>
          simp only [h3, report] at he
          by_cases h4 : cmd.GetFlagString "output" = ""
          · simp [h4] at he
            subst he
            exact ⟨rfl, Or.inr ⟨_, rfl⟩⟩
          · simp [h4] at he
            subst he
            exact ⟨rfl, Or.inl rfl⟩
  · intro version kind mapping client h1 h2 h3 h4
    simp [createCommandInternal, hns, hg, hval, hgen, hdry, h1, h2, h3, report, h4]

/-- A dry run of create namespace with an output format prints the generated namespace;
the server, which would answer with another object, is not asked. -/
theorem dry_run_reports_generated_witness :
    (∀ e ∈ (createCommandInternal id sampleFactory (sampleCommand "" "yaml" true) ["a"]
        "namespace/v1" none).2,
      e.isSubmit = false ∧
        (e = Effect.printObject (some (Object.namespace { meta := { Name := "a" } })) ∨
          ∃ resource, e = Effect.printSuccess resource "a" "created")) ∧
    createCommandInternal id sampleFactory (sampleCommand "" "yaml" true) ["a"] "namespace/v1" none
      = (none, [Effect.printObject (some (Object.namespace { meta := { Name := "a" } }))]) :=
  have h := dry_run_reports_generated id sampleFactory (sampleCommand "" "yaml" true) "a" []
    "namespace/v1" none "default" NamespaceGeneratorV1.generator
    (some (Object.namespace { meta := { Name := "a" } })) rfl (by rfl) (by decide)
    (by decide) (by decide)
  ⟨h.1, h.2 "v1" "Namespace" { Resource := "namespaces" } { id := "client" } rfl rfl rfl
    (by decide)⟩

/-- C7. No partial commit in createCommandInternal: when the named generator is not in
the registry (an explicitly named generator is looked up under its own name, not the
default), or ValidateParams returns an error, or Generate returns an error, then
createCommandInternal returns an error, makes no annotate or Create call and reports
nothing; in the validation and generation cases the error returned is the originating
error itself. -/
theorem no_partial_commit (rangeOrder : ParamMap → ParamMap) (f : Factory) (cmd : Command)
    (args : List String) (defaultGenerator : String)
    (visitor : Option (Command → ParamMap → ParamMap)) :
    (cmd.GetFlagString "generator" ≠ "" →
      resolveGeneratorName cmd defaultGenerator = cmd.GetFlagString "generator") ∧
    (f.Generator (resolveGeneratorName cmd defaultGenerator) = none →
      (createCommandInternal rangeOrder f cmd args defaultGenerator visitor).1.isSome = true ∧
      (createCommandInternal rangeOrder f cmd args defaultGenerator visitor).2 = []) ∧
    (∀ arg0 extra, args = arg0 :: extra → ∀ ns, f.DefaultNamespace = Except.ok ns →
      f.Generator (resolveGeneratorName cmd defaultGenerator) = none →
      createCommandInternal rangeOrder f cmd args defaultGenerator visitor
        = (some (UsageError ("Generator: " ++ resolveGeneratorName cmd defaultGenerator
            ++ " not found.")), [])) ∧
    (∀ arg0 extra, args = arg0 :: extra → ∀ ns, f.DefaultNamespace = Except.ok ns →
      ∀ g, f.Generator (resolveGeneratorName cmd defaultGenerator) = some g →
      ∀ err, ValidateParams g.ParamNames (assembleParams cmd g.ParamNames arg0 extra visitor)
          = some err →
      createCommandInternal rangeOrder f cmd args defaultGenerator visitor = (some err, [])) ∧
    (∀ arg0 extra, args = arg0 :: extra → ∀ ns, f.DefaultNamespace = Except.ok ns →
      ∀ g, f.Generator (resolveGeneratorName cmd defaultGenerator) = some g →
      ValidateParams g.ParamNames (assembleParams cmd g.ParamNames arg0 extra visitor) = none →
      ∀ obj err, g.Generate (rangeOrder (assembleParams cmd g.ParamNames arg0 extra visitor))
          = (obj, some err) →
      createCommandInternal rangeOrder f cmd args defaultGenerator visitor = (some err, [])) := by
  refine ⟨?_, ?_, ?_, ?_, ?_⟩
  · intro h
    have : ¬ (cmd.GetFlagString "generator").length = 0 := by
      intro h0
      exact h (string_eq_empty_of_length _ h0)
    simp [resolveGeneratorName, this]
  · intro h
    cases args with
    | nil => simp [createCommandInternal]
    | cons arg0 extra =>
      cases hns : f.DefaultNamespace with
      | error err => simp [createCommandInternal, hns]
      | ok ns => simp [createCommandInternal, hns, h]
  · intro arg0 extra hargs ns hns h
    subst hargs
    simp [createCommandInternal, hns, h]
  · intro arg0 extra hargs ns hns g hg err hval
    subst hargs
    simp [createCommandInternal, hns, hg, hval]
  · intro arg0 extra hargs ns hns g hg hval obj err hgen
    subst hargs
    simp [createCommandInternal, hns, hg, hval, hgen]

/-- An unknown generator named by the flag, although the default is registered; a
validation error; and a generation error: each is returned with no call made. -/
theorem no_partial_commit_witness :
    createCommandInternal id sampleFactory (sampleCommand "nosuch/v1" "" false) ["a"]
        "namespace/v1" none
      = (some (UsageError "Generator: nosuch/v1 not found."), []) ∧
    createCommandInternal id sampleFactory
        (sampleCommand "secret-for-docker-registry/v1" "" false) ["a"] "namespace/v1" none
      = (some (Err.missingRequired "docker-username"), []) ∧
    createCommandInternal id sampleFactory (sampleCommand "" "" false) ["a", "b"]
        "namespace/v1" none
      = (some (Err.expectedString (Value.strSlice ["b"]) "args"), []) :=
  ⟨(no_partial_commit id sampleFactory (sampleCommand "nosuch/v1" "" false) ["a"]
      "namespace/v1" none).2.2.1 "a" [] rfl "default" rfl (by rfl),
   (no_partial_commit id sampleFactory (sampleCommand "secret-for-docker-registry/v1" "" false)
      ["a"] "namespace/v1" none).2.2.2.1 "a" [] rfl "default" rfl
      (SecretForDockerRegistryGeneratorV1.generator sampleApi) (by rfl)
      (Err.missingRequired "docker-username") (by decide),
   (no_partial_commit id sampleFactory (sampleCommand "" "" false) ["a", "b"]
      "namespace/v1" none).2.2.2.2 "a" ["b"] rfl "default" rfl
      NamespaceGeneratorV1.generator (by rfl) (by decide) none
      (Err.expectedString (Value.strSlice ["b"]) "args") (by decide)⟩

/-! ## Extra positional arguments -/


theorem stringMap_mapSet (m : ParamMap) (k s : String) (h : StringMap m) :
    StringMap (mapSet m k (Value.str s)) := by
  refine ⟨keysNodup_mapSet m k _ h.1, fun e he => ?_⟩
  rcases mem_mapSet m k _ e he with h1 | h1
  · exact ⟨s, by rw [h1]⟩
  · exact h.2 e h1

theorem stringMap_foldl (cmd : Command) (names : List GeneratorParam) (acc : ParamMap)
    (h : StringMap acc) :
    StringMap (names.foldl
      (fun result p =>
        match cmd.LookupFlag p.Name with
        | some v => mapSet result p.Name (Value.str v)
        | none => result) acc) := by
  induction names generalizing acc with
  | nil => exact h
  | cons p rest ih =>
    simp only [List.foldl_cons]
    apply ih
    cases cmd.LookupFlag p.Name with
    | none => exact h
    | some v => exact stringMap_mapSet acc p.Name v h

theorem stringMap_MakeParams (cmd : Command) (names : List GeneratorParam) :
    StringMap (MakeParams cmd names) :=
  stringMap_foldl cmd names [] ⟨List.nodup_nil, fun e he => absurd he (List.not_mem_nil e)⟩

/-- With a nil visitor and a second positional argument, the assembled map has distinct
keys, carries the extra arguments under "args", and holds strings everywhere else. -/
theorem assembleParams_args (cmd : Command) (names : List GeneratorParam) (arg0 arg1 : String)
    (extra : List String) :
    KeysNodup (assembleParams cmd names arg0 (arg1 :: extra) none) ∧
    mapGet (assembleParams cmd names arg0 (arg1 :: extra) none) "args"
      = some (Value.strSlice (arg1 :: extra)) ∧
    ∀ e ∈ assembleParams cmd names arg0 (arg1 :: extra) none,
      e = ("args", Value.strSlice (arg1 :: extra)) ∨ ∃ s, e.2 = Value.str s := by
  have hs := stringMap_mapSet _ "name" arg0 (stringMap_MakeParams cmd names)
  have e : assembleParams cmd names arg0 (arg1 :: extra) none
      = mapSet (mapSet (MakeParams cmd names) "name" (Value.str arg0)) "args"
          (Value.strSlice (arg1 :: extra)) := by
    simp [assembleParams]
  rw [e]
  refine ⟨keysNodup_mapSet _ _ _ hs.1, by simp [mapGet_mapSet], fun x hx => ?_⟩
  rcases mem_mapSet _ _ _ x hx with h1 | h1
  · exact Or.inl h1
  · exact Or.inr (hs.2 x h1)

/-- C10, as the code has it. In an invocation of createCommandInternal with two or more
positional arguments and a nil visitor that resolves NamespaceGeneratorV1 or
SecretForDockerRegistryGeneratorV1, the assembled map carries args[1:] as a string
sequence under "args"; a validation error of the assembled map is returned as it is;
when validation passes, Generate fails with the expected-string error for "args", in
whatever order it visits the map, and createCommandInternal returns that error; in both
cases no call is made. -/
theorem extra_args_rejected (rangeOrder : ParamMap → ParamMap)
    (horder : ∀ m, (rangeOrder m).Perm m) (f : Factory) (cmd : Command)
    (arg0 arg1 : String) (extra : List String) (defaultGenerator : String)
    (api : ApiConstants) (g : Generator)
    (hg : g = NamespaceGeneratorV1.generator ∨
      g = SecretForDockerRegistryGeneratorV1.generator api)
    (ns : String) (hns : f.DefaultNamespace = Except.ok ns)
    (hres : f.Generator (resolveGeneratorName cmd defaultGenerator) = some g) :
    mapGet (assembleParams cmd g.ParamNames arg0 (arg1 :: extra) none) "args"
      = some (Value.strSlice (arg1 :: extra)) ∧
    (∀ err, ValidateParams g.ParamNames (assembleParams cmd g.ParamNames arg0 (arg1 :: extra) none)
        = some err →
      createCommandInternal rangeOrder f cmd (arg0 :: arg1 :: extra) defaultGenerator none
        = (some err, [])) ∧
    (ValidateParams g.ParamNames (assembleParams cmd g.ParamNames arg0 (arg1 :: extra) none)
        = none →
      g.Generate (rangeOrder (assembleParams cmd g.ParamNames arg0 (arg1 :: extra) none))
        = (none, some (Err.expectedString (Value.strSlice (arg1 :: extra)) "args")) ∧
      createCommandInternal rangeOrder f cmd (arg0 :: arg1 :: extra) defaultGenerator none
        = (some (Err.expectedString (Value.strSlice (arg1 :: extra)) "args"), [])) := by
  obtain ⟨hnd, hargs, hall⟩ := assembleParams_args cmd g.ParamNames arg0 arg1 extra
  refine ⟨hargs, ?_, ?_⟩
  · intro err hval
    simp [createCommandInternal, hns, hres, hval]
  · intro hval
    have hgen : g.Generate (rangeOrder (assembleParams cmd g.ParamNames arg0 (arg1 :: extra) none))
        = (none, some (Err.expectedString (Value.strSlice (arg1 :: extra)) "args")) := by
      have hp := horder (assembleParams cmd g.ParamNames arg0 (arg1 :: extra) none)
      have hval1 := ValidateParams_perm g.ParamNames _ _ hp hnd
      rw [hval] at hval1
      obtain ⟨k, v, hmem, hnone, hrun⟩ := rangeStrings_error
        (rangeOrder (assembleParams cmd g.ParamNames arg0 (arg1 :: extra) none)) []
        ⟨("args", Value.strSlice (arg1 :: extra)), hp.mem_iff.2 (mem_of_mapGet _ _ _ hargs), rfl⟩
      rcases hall (k, v) (hp.mem_iff.1 hmem) with h1 | ⟨s, h1⟩
      · injection h1 with hk hv
        subst hk; subst hv
        exact generate_of_loop_error api g hg _ _ hval1 hrun
      · simp only at h1
        subst h1
        simp [Value.asString] at hnone
    exact ⟨hgen, by simp [createCommandInternal, hns, hres, hval, hgen]⟩

/-- The create namespace command with a second positional argument, and the
docker-registry generator with all its flags and a second positional argument. -/
theorem extra_args_rejected_witness :
    (mapGet (assembleParams (sampleCommand "" "" false) NamespaceGeneratorV1.generator.ParamNames
        "a" ["b"] none) "args" = some (Value.strSlice ["b"]) ∧
      NamespaceGeneratorV1.generator.Generate
          (assembleParams (sampleCommand "" "" false) NamespaceGeneratorV1.generator.ParamNames
            "a" ["b"] none)
        = (none, some (Err.expectedString (Value.strSlice ["b"]) "args")) ∧
      createCommandInternal id sampleFactory (sampleCommand "" "" false) ["a", "b"]
          "namespace/v1" none
        = (some (Err.expectedString (Value.strSlice ["b"]) "args"), [])) ∧
    createCommandInternal id sampleFactory sampleDockerCommand ["n", "x", "y"] "namespace/v1" none
      = (some (Err.expectedString (Value.strSlice ["x", "y"]) "args"), []) :=
  have h := extra_args_rejected id (fun m => List.Perm.refl m) sampleFactory
    (sampleCommand "" "" false) "a" "b" [] "namespace/v1" sampleApi
    NamespaceGeneratorV1.generator (Or.inl rfl) "default" rfl (by rfl)
  have h1 := extra_args_rejected id (fun m => List.Perm.refl m) sampleFactory
    sampleDockerCommand "n" "x" ["y"] "namespace/v1" sampleApi
    (SecretForDockerRegistryGeneratorV1.generator sampleApi) (Or.inr rfl) "default" rfl (by rfl)
  ⟨⟨h.1, (h.2.2 (by decide)).1, (h.2.2 (by decide)).2⟩, (h1.2.2 (by decide)).2⟩

/-- C10, as stated, fails: with two positional arguments, a nil visitor and the resolved
generator SecretForDockerRegistryGeneratorV1 on a command without the docker flags, the
assembled map carries the extra argument under "args", yet neither Generate on that map
nor createCommandInternal fails with an expected-string error: both return the
validation error. -/
theorem extra_args_expected_string_counterexample :
    sampleFactory.Generator
        (resolveGeneratorName (sampleCommand "secret-for-docker-registry/v1" "" false)
          "namespace/v1")
      = some (SecretForDockerRegistryGeneratorV1.generator sampleApi) ∧
    mapGet (assembleParams (sampleCommand "secret-for-docker-registry/v1" "" false)
        SecretForDockerRegistryGeneratorV1.ParamNames "n" ["x"] none) "args"
      = some (Value.strSlice ["x"]) ∧
    SecretForDockerRegistryGeneratorV1.Generate sampleApi
        (assembleParams (sampleCommand "secret-for-docker-registry/v1" "" false)
          SecretForDockerRegistryGeneratorV1.ParamNames "n" ["x"] none)
      = (none, some (Err.missingRequired "docker-username")) ∧
    createCommandInternal id sampleFactory
        (sampleCommand "secret-for-docker-registry/v1" "" false) ["n", "x"] "namespace/v1" none
      = (some (Err.missingRequired "docker-username"), []) ∧
    ¬ ∃ value key,
      (createCommandInternal id sampleFactory
        (sampleCommand "secret-for-docker-registry/v1" "" false) ["n", "x"] "namespace/v1"
        none).1 = some (Err.expectedString value key) := by
  have h : createCommandInternal id sampleFactory
        (sampleCommand "secret-for-docker-registry/v1" "" false) ["n", "x"] "namespace/v1" none
      = (some (Err.missingRequired "docker-username"), []) := by decide
  refine ⟨by rfl, by decide, by decide, h, ?_⟩
  rintro ⟨value, key, hv⟩
  rw [h] at hv
  simp at hv

end Kubectl
